import Mathlib

/-!
Shallow embedding of `app/backend/mcp_server.py` from the
azure-search-openai-demo repository.

The module exposes two MCP tools:

* `search_my_documentation(search_query, search_topic)` — resolves the topic
  through the `search_indices` table, queries the Azure AI Search index and
  formats the ranked results;
* `upload_to_my_documentation(filepath, search_topic)` — reads a local file,
  uploads it to blob storage (`overwrite=True`), then configures the ingestion
  pipeline and indexes the file.

Effects are made explicit: the process environment and each collaborator
outcome (file read, blob upload, search query, ingestion) are inputs, external
actions are recorded in a trace of `Event`s, and Python exceptions are the
`Except.error` branch of the result.  The `try/except` wrappers of the two
tools are separate definitions on top of the `try:`-block bodies.
-/

/-- Raw file content, a sequence of bytes (Python `bytes`). -/
abbrev Bytes := List Nat

/-- A raised Python exception, reduced to the text that `str(e)` renders. -/
structure PyExc where
  msg : String
deriving DecidableEq, Repr

/-- The process environment `os.environ`: variable names to values. -/
abbrev Env := List (String × String)

/-- `os.environ[name]`: raises `KeyError(name)` when the variable is absent
(Python renders the caught `KeyError` as the quoted key). -/
def environItem (env : Env) (name : String) : Except PyExc String :=
  match env.lookup name with
  | some v => Except.ok v
  | none => Except.error ⟨"\x27" ++ name ++ "\x27"⟩

/-- `os.environ.get(name)` followed by a Python truthiness test (`not x`):
a missing variable and an empty string are both falsy. -/
def environTruthy (env : Env) (name : String) : Option String :=
  match env.lookup name with
  | some v => if v = "" then none else some v
  | none => none

/-- The `search_indices` dict of `mcp_server.py` (lines 42-46).  The
`DocumentationTopic` enum is a `str` enum, so dict lookup behaves as
exact string-key lookup over the three member values. -/
def search_indices : List (String × String) :=
  [("Model Context Protocol", "gptkbindex"),
   ("Flask", "gptkbindex-flask"),
   ("ESLint", "gptkbindex-eslint")]

/-- `search_indices.get(search_topic)`: topic-to-index resolution. -/
def resolveIndex (topic : String) : Option String :=
  search_indices.lookup topic

/-- An observable external action of a tool call. -/
inductive Event
  | clientCreate (index : String)
  | netSearch (index : String) (query : String)
  | fileRead (path : String)
  | blobUpload (name : String) (data : Bytes)
  | indexAdd (index : String) (acls : List (String × List String)) (url : String)
deriving DecidableEq, Repr

/-- One record from the Azure AI Search ranking service, with the two fields
`search_my_documentation` reads. -/
structure Doc where
  sourcepage : String
  content : String
deriving DecidableEq, Repr

/-- Decidable equality for `Except`, so that concrete worlds can be compared
by `decide`. -/
instance instDecidableEqExcept {ε α : Type} [DecidableEq ε] [DecidableEq α] :
    DecidableEq (Except ε α) := fun a b =>
  match a, b with
  | Except.error x, Except.error y =>
    if h : x = y then isTrue (by rw [h])
    else isFalse (fun hc => by cases hc; exact h rfl)
  | Except.error _, Except.ok _ => isFalse (fun hc => by cases hc)
  | Except.ok _, Except.error _ => isFalse (fun hc => by cases hc)
  | Except.ok x, Except.ok y =>
    if h : x = y then isTrue (by rw [h])
    else isFalse (fun hc => by cases hc; exact h rfl)

/-- The inputs a single `search_my_documentation` call can observe: the
environment and the outcome of the search request (the ranked records, in
the order the service returned them, or a raised exception). -/
structure SearchWorld where
  env : Env
  searchResult : Except PyExc (List Doc)
deriving DecidableEq, Repr

/-- Line 79: each record is rendered as the f-string
`[{doc[sourcepage]}]: {doc[content]}` followed by a newline. -/
def formatDoc (d : Doc) : String :=
  "[" ++ d.sourcepage ++ "]: " ++ d.content ++ "\n"

/-- The error string of lines 65 and 141. -/
def noIndexError : String :=
  "Error: Could not find appropriate search index for the given topic."

/-- The `try:` block of `search_my_documentation` (lines 60-80): read
`AZURE_SEARCH_SERVICE` with bracket access, resolve the topic (returning
`noIndexError` when it resolves to nothing), create a `SearchClient`, run the
semantic search and join the formatted records with `"\n\n"`. -/
def searchBody (w : SearchWorld) (search_query search_topic : String) :
    Except PyExc String × List Event :=
  match environItem w.env "AZURE_SEARCH_SERVICE" with
  | Except.error e => (Except.error e, [])
  | Except.ok _ =>
    match resolveIndex search_topic with
    | none => (Except.ok noIndexError, [])
    | some index =>
      match w.searchResult with
      | Except.error e =>
        (Except.error e, [Event.clientCreate index, Event.netSearch index search_query])
      | Except.ok results =>
        (Except.ok (String.intercalate "\n\n" (results.map formatDoc)),
         [Event.clientCreate index, Event.netSearch index search_query])

/-- `search_my_documentation` with its `try/except Exception` wrapper
(lines 81-82): a raised exception is rendered as `f"Error: {e}"`. -/
def search_my_documentation (w : SearchWorld) (search_query search_topic : String) :
    Except PyExc String × List Event :=
  match searchBody w search_query search_topic with
  | (Except.ok s, tr) => (Except.ok s, tr)
  | (Except.error e, tr) => (Except.ok ("Error: " ++ e.msg), tr)

/-- The blob container: object name to stored bytes. -/
abbrev BlobStore := List (String × Bytes)

/-- `upload_blob(..., overwrite=True)` (line 124): store the bytes under the
name, replacing any object previously stored under the same name. -/
def BlobStore.put (s : BlobStore) (name : String) (data : Bytes) : BlobStore :=
  (name, data) :: s.filter (fun p => p.1 != name)

/-- Look up the bytes stored under a name. -/
def BlobStore.find (s : BlobStore) (name : String) : Option Bytes :=
  s.lookup name

/-- `blob_client.url` for an object of the configured account and container. -/
def blobUrl (account container name : String) : String :=
  "https://" ++ account ++ ".blob.core.windows.net/" ++ container ++ "/" ++ name

/-- `os.path.basename`: everything after the last path separator (the
accumulator restarts at each `/`). -/
def basename (p : String) : String :=
  String.mk (p.data.foldl (fun acc c => if c = '/' then [] else acc ++ [c]) [])

/-- Parse a run of decimal digits; `none` when empty or non-digit. -/
def parseDigits (cs : List Char) : Option Nat :=
  match cs with
  | [] => none
  | _ =>
    cs.foldl
      (fun acc c =>
        match acc with
        | some n => if c.isDigit then some (10 * n + (c.toNat - 48)) else none
        | none => none)
      (some 0)

/-- Python `int(s)` on a decimal string: an optional sign followed by digits;
anything else raises `ValueError`, modelled as `none`. -/
def pyInt (s : String) : Option Int :=
  match s.data with
  | '-' :: cs => (parseDigits cs).map (fun n => -(n : Int))
  | '+' :: cs => (parseDigits cs).map (fun n => (n : Int))
  | cs => (parseDigits cs).map (fun n => (n : Int))

/-- The inputs a single `upload_to_my_documentation` call can observe: the
environment, the blob container contents before the call, and the outcomes of
the file read, the blob upload and the ingestion (`ingester.add_file`). -/
structure UploadWorld where
  env : Env
  store : BlobStore
  readFile : Except PyExc Bytes
  uploadResult : Except PyExc Unit
  ingestResult : Except PyExc Unit
deriving DecidableEq, Repr

/-- Lines 129-170 of `upload_to_my_documentation`, the stages after the blob
upload: `setup_file_processors` (only `os.getenv` reads, cannot raise), the
hard-coded topic override `search_topic = DocumentationTopic.MODELCONTEXTPROTOCOL`
of line 138, the index resolution, `setup_search_info` (bracket read of
`AZURE_SEARCH_SERVICE`, line 143), `setup_embeddings_service` (bracket reads of
`AZURE_OPENAI_EMB_MODEL_NAME`, line 151, and `int(...)` of
`AZURE_OPENAI_EMB_DIMENSIONS`, line 155 — evaluated in argument order, before
any `disable_vectors` branch), and finally `ingester.add_file` on a `File`
with `acls={}` and the blob URL (line 168). -/
def uploadAfterUpload (w : UploadWorld) (filename url : String) :
    Except PyExc String × List Event :=
  let search_topic := "Model Context Protocol"
  match resolveIndex search_topic with
  | none => (Except.ok noIndexError, [])
  | some search_index =>
    match environItem w.env "AZURE_SEARCH_SERVICE" with
    | Except.error e => (Except.error e, [])
    | Except.ok _ =>
      match environItem w.env "AZURE_OPENAI_EMB_MODEL_NAME" with
      | Except.error e => (Except.error e, [])
      | Except.ok _ =>
        match environItem w.env "AZURE_OPENAI_EMB_DIMENSIONS" with
        | Except.error e => (Except.error e, [])
        | Except.ok dims =>
          match pyInt dims with
          | none =>
            (Except.error ⟨"invalid literal for int() with base 10: \x27" ++ dims ++ "\x27"⟩,
             [])
          | some _ =>
            match w.ingestResult with
            | Except.error e => (Except.error e, [Event.indexAdd search_index [] url])
            | Except.ok _ =>
              (Except.ok ("File \x27" ++ filename ++
                  "\x27 uploaded and processed successfully. It is now searchable in the index."),
               [Event.indexAdd search_index [] url])

/-- The `try:` block of `upload_to_my_documentation` (lines 97-170): read the
file, return early on empty content (line 101) and on unset-or-empty storage
settings (line 110), upload the blob under `basename(filepath)` with
`overwrite=True`, then run the post-upload stages.  The caller-supplied
`search_topic` is never read: line 138 overwrites it before first use. -/
def uploadBody (w : UploadWorld) (filepath search_topic : String) :
    Except PyExc String × List Event × BlobStore :=
  match w.readFile with
  | Except.error e => (Except.error e, [Event.fileRead filepath], w.store)
  | Except.ok file_data =>
    if file_data = [] then
      (Except.ok "Error: File is empty.", [Event.fileRead filepath], w.store)
    else
      let filename := basename filepath
      match environTruthy w.env "AZURE_STORAGE_ACCOUNT",
            environTruthy w.env "AZURE_STORAGE_CONTAINER" with
      | some account, some container =>
        (match w.uploadResult with
         | Except.error e =>
           (Except.error e,
            [Event.fileRead filepath, Event.blobUpload filename file_data], w.store)
         | Except.ok _ =>
           let url := blobUrl account container filename
           let res := uploadAfterUpload w filename url
           (res.1,
            Event.fileRead filepath :: Event.blobUpload filename file_data :: res.2,
            BlobStore.put w.store filename file_data))
      | _, _ =>
        (Except.ok "Error: Storage account is not configured.",
         [Event.fileRead filepath], w.store)

/-- `upload_to_my_documentation` with its `try/except Exception` wrapper
(lines 172-173): a raised exception is rendered as
`f"Error uploading file: {str(e)}\nTraceback: ..."` (the traceback text
itself is abstracted away). -/
def upload_to_my_documentation (w : UploadWorld) (filepath search_topic : String) :
    Except PyExc String × List Event × BlobStore :=
  match uploadBody w filepath search_topic with
  | (Except.ok s, tr, st) => (Except.ok s, tr, st)
  | (Except.error e, tr, st) =>
    (Except.ok ("Error uploading file: " ++ e.msg ++ "\nTraceback: "), tr, st)

/-! ### Helper lemmas -/

/-- The `try/except` wrapper changes only the result, never the trace or the
blob store. -/
theorem upload_wrapper_snd (w : UploadWorld) (fp t : String) :
    (upload_to_my_documentation w fp t).2 = (uploadBody w fp t).2 := by
  rcases h : uploadBody w fp t with ⟨r, tr, st⟩
  rcases r with e | s <;> simp [upload_to_my_documentation, h]

/-- A result the body produced without raising passes through the wrapper. -/
theorem upload_wrapper_ok (w : UploadWorld) (fp t : String) (s : String)
    (h : (uploadBody w fp t).1 = Except.ok s) :
    (upload_to_my_documentation w fp t).1 = Except.ok s := by
  rcases hb : uploadBody w fp t with ⟨r, tr, st⟩
  rw [hb] at h
  rcases r with e | s2 <;> simp_all [upload_to_my_documentation]

/-- An exception raised in the body is rendered by the `except` clause. -/
theorem upload_wrapper_error (w : UploadWorld) (fp t : String) (e : PyExc)
    (h : (uploadBody w fp t).1 = Except.error e) :
    (upload_to_my_documentation w fp t).1 =
      Except.ok ("Error uploading file: " ++ e.msg ++ "\nTraceback: ") := by
  rcases hb : uploadBody w fp t with ⟨r, tr, st⟩
  rw [hb] at h
  rcases r with e2 | s <;> simp_all [upload_to_my_documentation]

/-- The post-upload stages either stop before the ingester call (empty trace)
or call it exactly once, on the hard-coded `gptkbindex` index, with no ACLs
and the blob URL. -/
theorem afterUpload_trace_cases (w : UploadWorld) (fn url : String) :
    (uploadAfterUpload w fn url).2 = [] ∨
    (uploadAfterUpload w fn url).2 = [Event.indexAdd "gptkbindex" [] url] := by
  have hm : resolveIndex "Model Context Protocol" = some "gptkbindex" := rfl
  rcases h1 : w.env.lookup "AZURE_SEARCH_SERVICE" with _ | s1
  · exact Or.inl (by simp [uploadAfterUpload, hm, environItem, h1])
  · rcases h2 : w.env.lookup "AZURE_OPENAI_EMB_MODEL_NAME" with _ | s2
    · exact Or.inl (by simp [uploadAfterUpload, hm, environItem, h1, h2])
    · rcases h3 : w.env.lookup "AZURE_OPENAI_EMB_DIMENSIONS" with _ | s3
      · exact Or.inl (by simp [uploadAfterUpload, hm, environItem, h1, h2, h3])
      · rcases h4 : pyInt s3 with _ | n
        · exact Or.inl (by simp [uploadAfterUpload, hm, environItem, h1, h2, h3, h4])
        · rcases h5 : w.ingestResult with e | u
          · exact Or.inr (by simp [uploadAfterUpload, hm, environItem, h1, h2, h3, h4, h5])
          · exact Or.inr (by simp [uploadAfterUpload, hm, environItem, h1, h2, h3, h4, h5])

/-- Any `indexAdd` event of the post-upload stages targets `gptkbindex`,
carries no ACLs and records the given blob URL. -/
theorem afterUpload_indexAdd_mem (w : UploadWorld) (fn url idx u2 : String)
    (acls : List (String × List String))
    (h : Event.indexAdd idx acls u2 ∈ (uploadAfterUpload w fn url).2) :
    idx = "gptkbindex" ∧ acls = [] ∧ u2 = url ∧
    (uploadAfterUpload w fn url).2 = [Event.indexAdd "gptkbindex" [] url] := by
  rcases afterUpload_trace_cases w fn url with hc | hc
  · rw [hc] at h
    simp at h
  · rw [hc] at h
    simp at h
    exact ⟨h.1, h.2.1, h.2.2, hc⟩

/-- With a readable nonempty file, configured storage and an acknowledged
blob upload, the body is exactly: read, upload under `basename filepath`,
then the post-upload stages, with the blob store updated by `put`. -/
theorem uploadBody_reaches (w : UploadWorld) (fp t : String) (data : Bytes)
    (account container : String)
    (hrf : w.readFile = Except.ok data) (hne : data ≠ [])
    (ha : environTruthy w.env "AZURE_STORAGE_ACCOUNT" = some account)
    (hc : environTruthy w.env "AZURE_STORAGE_CONTAINER" = some container)
    (hu : w.uploadResult = Except.ok ()) :
    uploadBody w fp t =
      ((uploadAfterUpload w (basename fp) (blobUrl account container (basename fp))).1,
       Event.fileRead fp :: Event.blobUpload (basename fp) data ::
         (uploadAfterUpload w (basename fp) (blobUrl account container (basename fp))).2,
       BlobStore.put w.store (basename fp) data) := by
  simp [uploadBody, hrf, hne, ha, hc, hu]

/-- Storing under a name makes the bytes retrievable under that name,
whatever the container held before. -/
theorem BlobStore.find_put (s : BlobStore) (n : String) (d : Bytes) :
    BlobStore.find (BlobStore.put s n d) n = some d := by
  simp [BlobStore.find, BlobStore.put, List.lookup]

/-- An `indexAdd` event can only arise on the full success path: the file was
read nonempty, storage was configured, the blob upload was acknowledged, and
the trace is exactly read, upload, index — with the hard-coded index, no ACLs
and the blob URL of the uploaded object. -/
theorem uploadBody_indexAdd_shape (w : UploadWorld) (fp t idx url : String)
    (acls : List (String × List String))
    (h : Event.indexAdd idx acls url ∈ (uploadBody w fp t).2.1) :
    idx = "gptkbindex" ∧ acls = [] ∧
    ∃ data account container,
      w.readFile = Except.ok data ∧ data ≠ [] ∧
      environTruthy w.env "AZURE_STORAGE_ACCOUNT" = some account ∧
      environTruthy w.env "AZURE_STORAGE_CONTAINER" = some container ∧
      w.uploadResult = Except.ok () ∧
      url = blobUrl account container (basename fp) ∧
      (uploadBody w fp t).2.1 =
        [Event.fileRead fp, Event.blobUpload (basename fp) data,
         Event.indexAdd idx acls url] ∧
      (uploadBody w fp t).2.2 = BlobStore.put w.store (basename fp) data := by
  rcases hrf : w.readFile with e | data
  · simp [uploadBody, hrf] at h
  · by_cases hd : data = []
    · simp [uploadBody, hrf, hd] at h
    · rcases ha : environTruthy w.env "AZURE_STORAGE_ACCOUNT" with _ | account
      · rcases hc : environTruthy w.env "AZURE_STORAGE_CONTAINER" with _ | container <;>
          simp [uploadBody, hrf, hd, ha, hc] at h
      · rcases hc : environTruthy w.env "AZURE_STORAGE_CONTAINER" with _ | container
        · simp [uploadBody, hrf, hd, ha, hc] at h
        · rcases hu : w.uploadResult with e | u
          · simp [uploadBody, hrf, hd, ha, hc, hu] at h
          · have hbody := uploadBody_reaches w fp t data account container hrf hd ha hc
              (by rw [hu])
            rw [hbody] at h
            simp at h
            rcases afterUpload_indexAdd_mem w (basename fp)
              (blobUrl account container (basename fp)) idx url acls h with
              ⟨hidx, hacls, hurl, htr⟩
            refine ⟨hidx, hacls, data, account, container, rfl, hd, rfl, rfl, rfl,
              hurl, ?_, ?_⟩
            · rw [hbody]
              simp [htr, hidx, hacls, hurl]
            · rw [hbody]

/-! ### Concrete worlds used by witnesses and counterexamples -/

/-- A fully configured environment with every collaborator succeeding, the
file read as two bytes of content. -/
def wFlask : UploadWorld :=
  { env := [("AZURE_STORAGE_ACCOUNT", "acct"), ("AZURE_STORAGE_CONTAINER", "cont"),
            ("AZURE_SEARCH_SERVICE", "svc"), ("AZURE_OPENAI_EMB_MODEL_NAME", "ada"),
            ("AZURE_OPENAI_EMB_DIMENSIONS", "1536")],
    store := [], readFile := Except.ok [1, 2], uploadResult := Except.ok (),
    ingestResult := Except.ok () }

/-- A search world whose environment has the search service configured and
whose query returns no records. -/
def wSvc : SearchWorld :=
  { env := [("AZURE_SEARCH_SERVICE", "svc")], searchResult := Except.ok [] }

/-- A search world with an empty environment. -/
def wNoEnv : SearchWorld :=
  { env := [], searchResult := Except.ok [] }

/-! ### Claims -/

/-- Claim C1 (code bug): ingestion does not index into the caller-selected
topic's index.  With topic `Flask` selected (which resolves to
`gptkbindex-flask`), the indexing event targets `gptkbindex` — the
`Model Context Protocol` index — because line 138 overwrites `search_topic`
with `DocumentationTopic.MODELCONTEXTPROTOCOL` before it is ever read. -/
theorem upload_ignores_caller_topic :
    resolveIndex "Flask" = some "gptkbindex-flask" ∧
    (upload_to_my_documentation wFlask "/tmp/doc.md" "Flask").2.1 =
      [Event.fileRead "/tmp/doc.md", Event.blobUpload "doc.md" [1, 2],
       Event.indexAdd "gptkbindex" [] (blobUrl "acct" "cont" "doc.md")] ∧
    "gptkbindex" ≠ "gptkbindex-flask" := by
  refine ⟨rfl, rfl, ?_⟩
  decide

/-- Claim C2: topic-to-index resolution is exact-key lookup over the closed
three-topic table — each supported topic maps to its configured index, every
other string (no partial matches, no case folding) maps to `none`, and an
unresolvable topic makes the search entry point return the
could-not-find-index error string. -/
theorem topic_resolution_exact_lookup (t q svc : String) (w : SearchWorld)
    (hsvc : w.env.lookup "AZURE_SEARCH_SERVICE" = some svc) :
    resolveIndex t =
      (if t = "Model Context Protocol" then some "gptkbindex"
       else if t = "Flask" then some "gptkbindex-flask"
       else if t = "ESLint" then some "gptkbindex-eslint"
       else none) ∧
    (resolveIndex t = none →
      (search_my_documentation w q t).1 = Except.ok noIndexError) := by
  constructor
  · by_cases h1 : t = "Model Context Protocol"
    · simp [resolveIndex, search_indices, List.lookup, h1]
    · by_cases h2 : t = "Flask"
      · simp [resolveIndex, search_indices, List.lookup, h1, h2]
      · by_cases h3 : t = "ESLint"
        · simp [resolveIndex, search_indices, List.lookup, h1, h2, h3]
        · have e1 : (t == "Model Context Protocol") = false := beq_eq_false_iff_ne.mpr h1
          have e2 : (t == "Flask") = false := beq_eq_false_iff_ne.mpr h2
          have e3 : (t == "ESLint") = false := beq_eq_false_iff_ne.mpr h3
          simp [resolveIndex, search_indices, List.lookup, e1, e2, e3, h1, h2, h3]
  · intro h
    simp [search_my_documentation, searchBody, environItem, hsvc, h]

/-- Witness for C2 at the concrete input `"flask"`: lookup is case-sensitive,
so the lowercased name of a supported topic resolves to nothing and the
search entry point answers with the error string. -/
theorem topic_resolution_exact_lookup_witness :
    resolveIndex "flask" = none ∧
    (search_my_documentation wSvc "q" "flask").1 = Except.ok noIndexError :=
  ⟨rfl, (topic_resolution_exact_lookup "flask" "q" "svc" wSvc rfl).2 rfl⟩

/-- Claim C3: on every input and under every collaborator outcome — success
or raised exception — both entry points return a string result
(`Except.ok`); no exception crosses the `try/except` boundary. -/
theorem mcp_tools_return_strings (w : SearchWorld) (u : UploadWorld)
    (q t fp ut : String) :
    (∃ s, (search_my_documentation w q t).1 = Except.ok s) ∧
    (∃ s, (upload_to_my_documentation u fp ut).1 = Except.ok s) := by
  constructor
  · rcases h : searchBody w q t with ⟨r, tr⟩
    rcases r with e | s
    · exact ⟨"Error: " ++ e.msg, by simp [search_my_documentation, h]⟩
    · exact ⟨s, by simp [search_my_documentation, h]⟩
  · rcases h : uploadBody u fp ut with ⟨r, tr, st⟩
    rcases r with e | s
    · exact ⟨"Error uploading file: " ++ e.msg ++ "\nTraceback: ",
        by simp [upload_to_my_documentation, h]⟩
    · exact ⟨s, by simp [upload_to_my_documentation, h]⟩

/-- Counterexample to claim C5 as stated: with `AZURE_SEARCH_SERVICE` unset,
a call with an unresolvable topic returns the rendered `KeyError` — not the
could-not-find-index error string — because line 61 reads the environment
variable before the topic is resolved.  (Still no network call is made.) -/
theorem unresolved_topic_counterexample :
    resolveIndex "Django" = none ∧
    (search_my_documentation wNoEnv "q" "Django").1 ≠ Except.ok noIndexError ∧
    (search_my_documentation wNoEnv "q" "Django").2 = [] := by
  refine ⟨rfl, ?_, rfl⟩
  decide

/-- Claim C5 as amended: provided the `AZURE_SEARCH_SERVICE` environment
variable is set, every search call whose topic resolves to no index returns
the could-not-find-index error string with an empty trace: no search client
is created and no network call is issued. -/
theorem unresolved_topic_short_circuits (w : SearchWorld) (q t svc : String)
    (hsvc : w.env.lookup "AZURE_SEARCH_SERVICE" = some svc)
    (h : resolveIndex t = none) :
    (search_my_documentation w q t).1 = Except.ok noIndexError ∧
    (search_my_documentation w q t).2 = [] := by
  constructor <;> simp [search_my_documentation, searchBody, environItem, hsvc, h]

/-- Witness for the amended C5 at the concrete topic `"Django"`. -/
theorem unresolved_topic_short_circuits_witness :
    (search_my_documentation wSvc "q" "Django").1 = Except.ok noIndexError ∧
    (search_my_documentation wSvc "q" "Django").2 = [] :=
  unresolved_topic_short_circuits wSvc "q" "Django" "svc" rfl rfl

/-- Claim C4: whenever an ingestion call reaches the indexing stage, the blob
upload has already been acknowledged (`uploadResult = ok`), the trace is
exactly read-then-upload-then-index (so no pipeline stage precedes the
upload), the URL recorded into the indexed record's provenance is the
uploaded blob's stable URL, and the raw bytes are durably retrievable from
the store. -/
theorem upload_completes_before_processing (w : UploadWorld)
    (fp t idx url : String) (acls : List (String × List String))
    (h : Event.indexAdd idx acls url ∈ (upload_to_my_documentation w fp t).2.1) :
    ∃ data account container,
      w.readFile = Except.ok data ∧
      w.uploadResult = Except.ok () ∧
      url = blobUrl account container (basename fp) ∧
      (upload_to_my_documentation w fp t).2.1 =
        [Event.fileRead fp, Event.blobUpload (basename fp) data,
         Event.indexAdd idx acls url] ∧
      BlobStore.find (upload_to_my_documentation w fp t).2.2 (basename fp) =
        some data := by
  have hsnd := upload_wrapper_snd w fp t
  rw [hsnd] at h
  rcases uploadBody_indexAdd_shape w fp t idx url acls h with
    ⟨_, _, data, account, container, hrf, _, _, _, hu, hurl, htr, hst⟩
  refine ⟨data, account, container, hrf, hu, hurl, ?_, ?_⟩
  · rw [hsnd, htr]
  · rw [hsnd, hst]
    exact BlobStore.find_put w.store (basename fp) data

/-- Witness for C4 at the concrete world `wFlask`. -/
theorem upload_completes_before_processing_witness :
    ∃ data account container,
      wFlask.readFile = Except.ok data ∧
      wFlask.uploadResult = Except.ok () ∧
      blobUrl "acct" "cont" "doc.md" = blobUrl account container (basename "/tmp/doc.md") ∧
      (upload_to_my_documentation wFlask "/tmp/doc.md" "Flask").2.1 =
        [Event.fileRead "/tmp/doc.md", Event.blobUpload (basename "/tmp/doc.md") data,
         Event.indexAdd "gptkbindex" [] (blobUrl "acct" "cont" "doc.md")] ∧
      BlobStore.find (upload_to_my_documentation wFlask "/tmp/doc.md" "Flask").2.2
        (basename "/tmp/doc.md") = some data :=
  upload_completes_before_processing wFlask "/tmp/doc.md" "Flask" "gptkbindex"
    (blobUrl "acct" "cont" "doc.md") []
    (by rw [show (upload_to_my_documentation wFlask "/tmp/doc.md" "Flask").2.1 =
          [Event.fileRead "/tmp/doc.md", Event.blobUpload "doc.md" [1, 2],
           Event.indexAdd "gptkbindex" [] (blobUrl "acct" "cont" "doc.md")] from rfl]
        simp)

/-- Claim C6: on a search that returns records, the output is the records
mapped in the order the ranking service returned them — each rendered as
`[sourcepage]: content` plus a newline — joined with blank-line separation;
an empty result set yields the empty string, not an error. -/
theorem search_formats_rank_order (w : SearchWorld) (q t svc idx : String)
    (docs : List Doc)
    (hsvc : w.env.lookup "AZURE_SEARCH_SERVICE" = some svc)
    (hidx : resolveIndex t = some idx)
    (hres : w.searchResult = Except.ok docs) :
    (search_my_documentation w q t).1 =
      Except.ok (String.intercalate "\n\n"
        (docs.map (fun d => "[" ++ d.sourcepage ++ "]: " ++ d.content ++ "\n"))) ∧
    (docs = [] → (search_my_documentation w q t).1 = Except.ok "") := by
  have hmain : (search_my_documentation w q t).1 =
      Except.ok (String.intercalate "\n\n"
        (docs.map (fun d => "[" ++ d.sourcepage ++ "]: " ++ d.content ++ "\n"))) := by
    simp [search_my_documentation, searchBody, environItem, hsvc, hidx, hres]
    rfl
  refine ⟨hmain, fun hnil => ?_⟩
  rw [hnil] at hmain
  exact hmain

/-- Records and the search world used by the C6 witness. -/
def docsEx : List Doc :=
  [{ sourcepage := "p1", content := "c1" }, { sourcepage := "p2", content := "c2" }]

/-- A configured search world returning the two records of `docsEx`. -/
def wDocs : SearchWorld :=
  { env := [("AZURE_SEARCH_SERVICE", "svc")], searchResult := Except.ok docsEx }

/-- Witness for C6: the two records of `docsEx` are rendered in rank order
and joined with blank-line separation. -/
theorem search_formats_rank_order_witness :
    (search_my_documentation wDocs "q" "Flask").1 =
      Except.ok (String.intercalate "\n\n"
        (docsEx.map (fun d => "[" ++ d.sourcepage ++ "]: " ++ d.content ++ "\n"))) :=
  (search_formats_rank_order wDocs "q" "Flask" "svc" "gptkbindex-flask" docsEx
    rfl rfl rfl).1

/-- Claim C7: a zero-byte file makes ingestion return the specific
`File is empty` error; the trace is the single file read — no retry, no
storage upload, no index write — and the blob store is untouched. -/
theorem empty_file_short_circuits (w : UploadWorld) (fp t : String)
    (h : w.readFile = Except.ok []) :
    (upload_to_my_documentation w fp t).1 = Except.ok "Error: File is empty." ∧
    (upload_to_my_documentation w fp t).2.1 = [Event.fileRead fp] ∧
    (upload_to_my_documentation w fp t).2.2 = w.store := by
  have hb : uploadBody w fp t =
      (Except.ok "Error: File is empty.", [Event.fileRead fp], w.store) := by
    simp [uploadBody, h]
  refine ⟨?_, ?_, ?_⟩ <;> simp [upload_to_my_documentation, hb]

/-- A configured world whose file read yields zero bytes. -/
def wEmptyFile : UploadWorld :=
  { env := wFlask.env, store := [("other.md", [7])], readFile := Except.ok [],
    uploadResult := Except.ok (), ingestResult := Except.ok () }

/-- Witness for C7 at the concrete world `wEmptyFile`. -/
theorem empty_file_short_circuits_witness :
    (upload_to_my_documentation wEmptyFile "/tmp/doc.md" "Flask").1 =
      Except.ok "Error: File is empty." ∧
    (upload_to_my_documentation wEmptyFile "/tmp/doc.md" "Flask").2.1 =
      [Event.fileRead "/tmp/doc.md"] ∧
    (upload_to_my_documentation wEmptyFile "/tmp/doc.md" "Flask").2.2 =
      wEmptyFile.store :=
  empty_file_short_circuits wEmptyFile "/tmp/doc.md" "Flask" rfl

/-- Claim C8: every record the ingestion pipeline writes to the search index
carries the empty access-control label set — `File(..., acls={})` is
hard-coded, and the caller has no parameter that could attach labels. -/
theorem index_records_carry_no_acls (w : UploadWorld) (fp t idx url : String)
    (acls : List (String × List String))
    (h : Event.indexAdd idx acls url ∈ (upload_to_my_documentation w fp t).2.1) :
    acls = [] := by
  rw [upload_wrapper_snd w fp t] at h
  exact (uploadBody_indexAdd_shape w fp t idx url acls h).2.1

/-- Witness for C8: the indexing event of the `wFlask` run indeed carries the
empty label set. -/
theorem index_records_carry_no_acls_witness :
    ([] : List (String × List String)) = [] :=
  index_records_carry_no_acls wFlask "/tmp/doc.md" "Flask" "gptkbindex"
    (blobUrl "acct" "cont" "doc.md") []
    (by rw [show (upload_to_my_documentation wFlask "/tmp/doc.md" "Flask").2.1 =
          [Event.fileRead "/tmp/doc.md", Event.blobUpload "doc.md" [1, 2],
           Event.indexAdd "gptkbindex" [] (blobUrl "acct" "cont" "doc.md")] from rfl]
        simp)

/-- If the embedding model name or the embedding dimensions variable is
absent, the post-upload stages raise before any `indexAdd` event. -/
theorem afterUpload_embedding_missing (w : UploadWorld) (fn url : String)
    (hmiss : w.env.lookup "AZURE_OPENAI_EMB_MODEL_NAME" = none ∨
             w.env.lookup "AZURE_OPENAI_EMB_DIMENSIONS" = none) :
    ∃ e, uploadAfterUpload w fn url = (Except.error e, []) := by
  have hm : resolveIndex "Model Context Protocol" = some "gptkbindex" := rfl
  rcases h1 : w.env.lookup "AZURE_SEARCH_SERVICE" with _ | s1
  · exact ⟨⟨"\x27AZURE_SEARCH_SERVICE\x27"⟩,
      by simp [uploadAfterUpload, hm, environItem, h1]⟩
  · rcases h2 : w.env.lookup "AZURE_OPENAI_EMB_MODEL_NAME" with _ | s2
    · exact ⟨⟨"\x27AZURE_OPENAI_EMB_MODEL_NAME\x27"⟩,
        by simp [uploadAfterUpload, hm, environItem, h1, h2]⟩
    · rcases hmiss with hmm | hdm
      · rw [h2] at hmm
        exact absurd hmm (by simp)
      · exact ⟨⟨"\x27AZURE_OPENAI_EMB_DIMENSIONS\x27"⟩,
          by simp [uploadAfterUpload, hm, environItem, h1, h2, hdm]⟩

/-- Claim C9: the durable-storage object name is exactly the basename of the
caller-supplied filepath (every `blobUpload` event carries that name and the
file's bytes), and the upload overwrites: after the call, the store maps that
basename to this call's bytes — whatever any earlier call (with a filepath
sharing the basename, from any directory) left stored under the same name. -/
theorem blob_name_basename_overwrite (w : UploadWorld) (fp t name : String)
    (d2 data : Bytes) (account container : String)
    (hrf : w.readFile = Except.ok data)
    (hne : data ≠ [])
    (ha : environTruthy w.env "AZURE_STORAGE_ACCOUNT" = some account)
    (hc : environTruthy w.env "AZURE_STORAGE_CONTAINER" = some container)
    (hu : w.uploadResult = Except.ok ()) :
    (Event.blobUpload name d2 ∈ (upload_to_my_documentation w fp t).2.1 →
      name = basename fp ∧ d2 = data) ∧
    (upload_to_my_documentation w fp t).2.2 =
      BlobStore.put w.store (basename fp) data ∧
    BlobStore.find (upload_to_my_documentation w fp t).2.2 (basename fp) =
      some data := by
  have hsnd := upload_wrapper_snd w fp t
  have hbody := uploadBody_reaches w fp t data account container hrf hne ha hc hu
  refine ⟨?_, ?_, ?_⟩
  · intro h
    rw [hsnd, hbody] at h
    simp at h
    rcases h with ⟨h1, h2⟩ | h
    · exact ⟨h1, h2⟩
    · rcases afterUpload_trace_cases w (basename fp)
        (blobUrl account container (basename fp)) with hc2 | hc2 <;>
        rw [hc2] at h <;> simp at h
  · rw [hsnd, hbody]
  · rw [hsnd, hbody]
    exact BlobStore.find_put w.store (basename fp) data

/-- A world whose store already holds bytes `[1, 2]` under `doc.md` (as a
previous ingestion of `/tmp/doc.md` leaves it) and whose file read — for a
path in a different directory with the same basename — yields `[9, 9]`. -/
def wOver : UploadWorld :=
  { env := wFlask.env, store := [("doc.md", [1, 2])], readFile := Except.ok [9, 9],
    uploadResult := Except.ok (), ingestResult := Except.ok () }

/-- Witness for C9: uploading `/other/doc.md` stores under `doc.md` and
silently replaces the previously stored bytes. -/
theorem blob_name_basename_overwrite_witness :
    (Event.blobUpload "doc.md" [9, 9] ∈
        (upload_to_my_documentation wOver "/other/doc.md" "ESLint").2.1 →
      "doc.md" = basename "/other/doc.md" ∧ [9, 9] = ([9, 9] : Bytes)) ∧
    (upload_to_my_documentation wOver "/other/doc.md" "ESLint").2.2 =
      BlobStore.put wOver.store (basename "/other/doc.md") [9, 9] ∧
    BlobStore.find (upload_to_my_documentation wOver "/other/doc.md" "ESLint").2.2
      (basename "/other/doc.md") = some [9, 9] :=
  blob_name_basename_overwrite wOver "/other/doc.md" "ESLint" "doc.md"
    [9, 9] [9, 9] "acct" "cont" rfl (by decide) rfl rfl rfl

/-- Claim C10: with the upload acknowledged, a missing embedding model name
or missing embedding dimensions variable makes the call return an error
result — even though the environment may disable vectors (`USE_VECTORS` is
never consulted before these reads, which happen in the argument list of
`setup_embeddings_service`) — and because they are read only after the
upload, the raw file is already durably stored while no index write ever
happens. -/
theorem embedding_config_required_after_upload (w : UploadWorld) (fp t : String)
    (data : Bytes) (account container : String)
    (hrf : w.readFile = Except.ok data) (hne : data ≠ [])
    (ha : environTruthy w.env "AZURE_STORAGE_ACCOUNT" = some account)
    (hc : environTruthy w.env "AZURE_STORAGE_CONTAINER" = some container)
    (hu : w.uploadResult = Except.ok ())
    (hmiss : w.env.lookup "AZURE_OPENAI_EMB_MODEL_NAME" = none ∨
             w.env.lookup "AZURE_OPENAI_EMB_DIMENSIONS" = none) :
    (∃ m, (upload_to_my_documentation w fp t).1 =
        Except.ok ("Error uploading file: " ++ m)) ∧
    BlobStore.find (upload_to_my_documentation w fp t).2.2 (basename fp) =
      some data ∧
    (∀ idx acls url, Event.indexAdd idx acls url ∉
      (upload_to_my_documentation w fp t).2.1) := by
  have hsnd := upload_wrapper_snd w fp t
  have hbody := uploadBody_reaches w fp t data account container hrf hne ha hc hu
  rcases afterUpload_embedding_missing w (basename fp)
    (blobUrl account container (basename fp)) hmiss with ⟨e, hafter⟩
  refine ⟨⟨e.msg ++ "\nTraceback: ", ?_⟩, ?_, ?_⟩
  · have h1 : (uploadBody w fp t).1 = Except.error e := by rw [hbody, hafter]
    rw [upload_wrapper_error w fp t e h1]
    simp [String.append_assoc]
  · rw [hsnd, hbody]
    exact BlobStore.find_put w.store (basename fp) data
  · intro idx acls url hmem
    rw [hsnd, hbody] at hmem
    simp at hmem
    rw [hafter] at hmem
    simp at hmem

/-- A world with storage and search service configured, vectors disabled,
and no embedding settings. -/
def wNoEmb : UploadWorld :=
  { env := [("AZURE_STORAGE_ACCOUNT", "acct"), ("AZURE_STORAGE_CONTAINER", "cont"),
            ("AZURE_SEARCH_SERVICE", "svc"), ("USE_VECTORS", "false")],
    store := [], readFile := Except.ok [1], uploadResult := Except.ok (),
    ingestResult := Except.ok () }

/-- Witness for C10 at `wNoEmb`, where `USE_VECTORS` is `"false"`. -/
theorem embedding_config_required_after_upload_witness :
    (∃ m, (upload_to_my_documentation wNoEmb "/tmp/doc.md" "Flask").1 =
        Except.ok ("Error uploading file: " ++ m)) ∧
    BlobStore.find (upload_to_my_documentation wNoEmb "/tmp/doc.md" "Flask").2.2
      (basename "/tmp/doc.md") = some [1] ∧
    (∀ idx acls url, Event.indexAdd idx acls url ∉
      (upload_to_my_documentation wNoEmb "/tmp/doc.md" "Flask").2.1) :=
  embedding_config_required_after_upload wNoEmb "/tmp/doc.md" "Flask" [1]
    "acct" "cont" rfl (by decide) rfl rfl rfl (Or.inl rfl)
